import Mathlib

/-!
Shallow embedding of the `regression-test` crate core
(`src/regression-test/src/lib.rs`): the record/compare snapshot session
(`RegTest::new`, `RegTest::regtest_internal`, `Drop for RegTest`) and the
line diff reporter (`diff_lines`).

Rust strings are modelled as `List Char`; `str::lines` is modelled by
`rustLines` (split on a newline character, drop a final empty segment,
strip one carriage return from every segment that was terminated by a
newline).  File storage at the session location is modelled as
`Option Artifact`: `none` when no file exists, `some .corrupt` when a file
exists but does not parse as an entry list, `some (.good es)` when it
parses to the entries `es`.  Panics in compare mode are modelled as
`Except.error` values; the infallible Rust `Drop` is modelled as a
function returning only the new storage state, with two booleans standing
for environment success of opening the file and of serializing/flushing.
-/

/- ## The diff reporter (`diff_lines`) -/

/-- Split a character list at every newline character, keeping empty
segments; the result is always nonempty (`str::split('\n')`). -/
def splitNL : List Char → List (List Char)
  | [] => [[]]
  | c :: cs =>
      if c = '\n' then [] :: splitNL cs
      else
        match splitNL cs with
        | [] => [[c]]
        | l :: ls => (c :: l) :: ls

/-- Strip one trailing carriage return, as `str::lines` does on every
line that was terminated by a newline. -/
def stripCR (l : List Char) : List Char :=
  if l.getLast? = some '\r' then l.dropLast else l

/-- `str::lines`: newline-separated segments, with a final empty segment
(from a trailing newline, or an empty input) dropped; every segment that
was followed by a newline has a trailing carriage return stripped. -/
def rustLines (s : List Char) : List (List Char) :=
  let segs := splitNL s
  if segs.getLast? = some [] then segs.dropLast.map stripCR
  else segs.dropLast.map stripCR ++ [segs.getLastD []]

/-- Render a pending removed run: each line prefixed `- ` and
newline-terminated. -/
def renderMinus (block : List (List Char)) : List Char :=
  (block.map (fun l => '-' :: ' ' :: (l ++ ['\n']))).flatten

/-- Render a pending added run: each line prefixed `+ ` and
newline-terminated. -/
def renderPlus (block : List (List Char)) : List Char :=
  (block.map (fun l => '+' :: ' ' :: (l ++ ['\n']))).flatten

/-- The loop of `diff_lines`: `for i in 0..max`, with the iteration count
as an explicit first argument and the two line sequences kept as the
suffixes not yet visited, so that the line at the current index is the
head (a missing line reads as empty, matching `get(i).unwrap_or(&"")`).
Differing lines accumulate into the pending removed/added blocks; at an
equal index with pending blocks both are flushed (removed run first);
at an equal index with no pending blocks the matching line is emitted as
context; after the loop both blocks are flushed once more. -/
def diffLoop : Nat → List (List Char) → List (List Char) →
    List (List Char) → List (List Char) → List Char → List Char
  | 0, _, _, minus, plus, acc =>
      acc ++ renderMinus minus ++ renderPlus plus
  | n + 1, es, as_, minus, plus, acc =>
      let e := es.headD []
      let a := as_.headD []
      if e ≠ a then
        diffLoop n es.tail as_.tail
          (if e ≠ [] then minus ++ [e] else minus)
          (if a ≠ [] then plus ++ [a] else plus) acc
      else
        if minus ≠ [] ∨ plus ≠ [] then
          diffLoop n es.tail as_.tail [] []
            (acc ++ renderMinus minus ++ renderPlus plus)
        else
          diffLoop n es.tail as_.tail minus plus
            (acc ++ (' ' :: ' ' :: (e ++ ['\n'])))

/-- `diff_lines`: the block-grouped line diff of two strings, running the
loop `max(len(exp_lines), len(act_lines))` times. -/
def diff_lines (expected actual : List Char) : List Char :=
  let exp_lines := rustLines expected
  let act_lines := rustLines actual
  diffLoop (Nat.max exp_lines.length act_lines.length)
    exp_lines act_lines [] [] []

/-- `diff_lines` on Lean strings, for stating concrete examples. -/
def diffStr (expected actual : String) : String :=
  ⟨diff_lines expected.data actual.data⟩

/- ## The snapshot session (`RegTest`) -/

/-- Rendering kind of one recorded observation (`enum RegType`). -/
inductive RegType where
  | display : RegType
  | debug : RegType
deriving DecidableEq, Repr

/-- One recorded observation (`struct RegEntry`). -/
structure RegEntry where
  reg_type : RegType
  message : List Char
deriving DecidableEq, Repr

/-- Session mode (`enum Mode`): `write` records, `compare` replays
(`Mode::Write` / `Mode::Read` in the source). -/
inductive Mode where
  | write : Mode
  | compare : Mode
deriving DecidableEq, Repr

/-- The on-disk artifact at the session location, abstracting JSON
(de)serialization: a file either parses into an entry list or not. -/
inductive Artifact where
  | corrupt : Artifact
  | good : List RegEntry → Artifact
deriving DecidableEq, Repr

/-- The live session handle (`struct RegTest`). -/
structure RegTest where
  file_path : List Char
  mode : Mode
  buffer : List RegEntry
  read_index : Nat
deriving DecidableEq, Repr

/-- Failures raised by `regtest_internal` in compare mode (the three
`panic!` sites), as error values. -/
inductive RegFailure where
  | unexpectedExtraEntry : RegFailure
  | kindMismatch : RegType → RegType → RegFailure
  | contentMismatch : List Char → List Char → List Char → RegFailure
deriving DecidableEq, Repr

/-- Failure raised by `RegTest::new` when the artifact exists but cannot
be parsed (the `serde_json::from_reader` error path). -/
inductive NewError where
  | corruptSnapshot : NewError
deriving DecidableEq, Repr

/-- `RegTest::new`: if a file exists at the path, parse it and enter
compare mode (failing when it is corrupt); otherwise enter write mode
with an empty buffer. -/
def RegTest.new (path : List Char) (fs : Option Artifact) :
    Except NewError RegTest :=
  match fs with
  | none =>
      .ok { file_path := path, mode := .write, buffer := [], read_index := 0 }
  | some .corrupt => .error .corruptSnapshot
  | some (.good entries) =>
      .ok { file_path := path, mode := .compare, buffer := entries,
            read_index := 0 }

/-- `RegTest::regtest_internal`: in write mode append the entry to the
buffer; in compare mode check the submission against the next expected
entry, advancing the cursor, with the out-of-entries check first, then
the kind check, then the message check (`buffer[read_index]?` is `none`
exactly when `read_index ≥ buffer.length`). -/
def regtest_internal (rt : RegTest) (message : List Char)
    (reg_type : RegType) : Except RegFailure RegTest :=
  match rt.mode with
  | .write =>
      .ok { rt with buffer := rt.buffer ++ [⟨reg_type, message⟩] }
  | .compare =>
      match rt.buffer[rt.read_index]? with
      | none => .error .unexpectedExtraEntry
      | some expected =>
          let rt' := { rt with read_index := rt.read_index + 1 }
          if expected.reg_type ≠ reg_type then
            .error (.kindMismatch expected.reg_type reg_type)
          else if expected.message ≠ message then
            .error (.contentMismatch expected.message message
              (diff_lines expected.message message))
          else
            .ok rt'

/-- Submit a whole sequence of observations in order, stopping at the
first failure (each Rust call either returns or panics). -/
def submitAll (rt : RegTest) (obs : List (RegType × List Char)) :
    Except RegFailure RegTest :=
  obs.foldlM (fun r km => regtest_internal r km.2 km.1) rt

/-- `Drop for RegTest`: in write mode, try to open/create/truncate the
file (`open_ok`) and serialize the buffer into it (`write_ok`); any
failure is ignored.  In compare mode nothing happens.  Returns the
resulting storage state; a failed write after a successful truncating
open leaves a partial, unparseable file. -/
def dropRegTest (rt : RegTest) (open_ok write_ok : Bool)
    (fs : Option Artifact) : Option Artifact :=
  match rt.mode with
  | .write =>
      if open_ok then
        if write_ok then some (.good rt.buffer) else some .corrupt
      else fs
  | .compare => fs

/- ## Helper lemmas about the session operations -/

/-- The entry built from one observation `(kind, text)`. -/
def entryOf (km : RegType × List Char) : RegEntry :=
  ⟨km.1, km.2⟩

/-- In write mode, a whole sequence of submissions succeeds and appends
exactly the corresponding entries, in order. -/
theorem submitAll_write_eq (obs : List (RegType × List Char))
    (rt : RegTest) (hm : rt.mode = .write) :
    submitAll rt obs = .ok { rt with buffer := rt.buffer ++ obs.map entryOf } := by
  induction obs generalizing rt with
  | nil =>
      have : submitAll rt [] = .ok rt := rfl
      rw [this]
      simp
  | cons km rest ih =>
      have hstep : regtest_internal rt km.2 km.1 =
          .ok { rt with buffer := rt.buffer ++ [⟨km.1, km.2⟩] } := by
        unfold regtest_internal
        rw [hm]
      have h1 : submitAll rt (km :: rest) =
          submitAll { rt with buffer := rt.buffer ++ [⟨km.1, km.2⟩] } rest := by
        simp only [submitAll, List.foldlM_cons, hstep]
        rfl
      have ihc := ih { rt with buffer := rt.buffer ++ [⟨km.1, km.2⟩] } hm
      rw [h1, ihc]
      simp [entryOf, List.append_assoc]

/-- In compare mode, replaying exactly the remaining expected entries
succeeds, advancing the cursor to the end. -/
theorem submitAll_replay (tail : List RegEntry) (rt : RegTest)
    (hm : rt.mode = .compare)
    (hd : rt.buffer.drop rt.read_index = tail) :
    submitAll rt (tail.map fun e => (e.reg_type, e.message)) =
      .ok { rt with read_index := rt.read_index + tail.length } := by
  induction tail generalizing rt with
  | nil =>
      have : submitAll rt [] = .ok rt := rfl
      simp only [List.map_nil, this, List.length_nil, Nat.add_zero]
  | cons e rest ih =>
      have hget : rt.buffer[rt.read_index]? = some e := by
        have := List.getElem?_drop rt.buffer rt.read_index 0
        rw [hd] at this
        simpa using this.symm
      have hstep : regtest_internal rt e.message e.reg_type =
          .ok { rt with read_index := rt.read_index + 1 } := by
        unfold regtest_internal
        rw [hm, hget]
        simp
      have hd' : ({ rt with read_index := rt.read_index + 1 } :
          RegTest).buffer.drop (rt.read_index + 1) = rest := by
        have h2 : rt.buffer.drop (rt.read_index + 1) =
            (rt.buffer.drop rt.read_index).drop 1 := by
          rw [List.drop_drop]
        simp only
        rw [h2, hd]
        rfl
      have h1 : submitAll rt ((e :: rest).map fun x => (x.reg_type, x.message)) =
          submitAll { rt with read_index := rt.read_index + 1 }
            (rest.map fun x => (x.reg_type, x.message)) := by
        simp only [submitAll, List.map_cons, List.foldlM_cons, hstep]
        rfl
      have ihc := ih { rt with read_index := rt.read_index + 1 } hm hd'
      rw [h1, ihc]
      simp [Nat.add_assoc, Nat.add_comm 1 rest.length]

/- ## Claim theorems: the snapshot session -/

/-- C8: In record (write) mode, every submission succeeds, and after any
sequence of submissions the session buffer is exactly the corresponding
entries `Entry(kind, text)` in submission order — nothing reordered,
deduplicated, or dropped. -/
theorem record_buffer_is_submission_order (path : List Char)
    (obs : List (RegType × List Char)) :
    submitAll ⟨path, .write, [], 0⟩ obs =
      .ok ⟨path, .write, obs.map entryOf, 0⟩ := by
  have h := submitAll_write_eq obs ⟨path, .write, [], 0⟩ rfl
  simpa using h

/-- C4: If the artifact at the location exists but cannot be parsed,
session creation fails with the corrupt-snapshot error and does not fall
back to a record-mode session. -/
theorem corrupt_artifact_aborts_creation (path : List Char) :
    RegTest.new path (some .corrupt) = .error .corruptSnapshot := rfl

/-- C6: In compare mode, whenever the next expected entry's kind differs
from the submitted kind, `regtest_internal` fails with a kind-mismatch
error reporting both kinds, regardless of the two texts — the kind check
precedes the text comparison. -/
theorem kind_mismatch_takes_precedence (rt : RegTest) (e : RegEntry)
    (m : List Char) (k : RegType) (hm : rt.mode = .compare)
    (hg : rt.buffer[rt.read_index]? = some e) (hk : e.reg_type ≠ k) :
    regtest_internal rt m k = .error (.kindMismatch e.reg_type k) := by
  unfold regtest_internal
  rw [hm, hg]
  simp [hk]

/-- Witness for C6: a submission whose kind and text both differ from
the expected entry is reported as a kind mismatch, not a content
mismatch. -/
theorem kind_mismatch_takes_precedence_witness :
    regtest_internal ⟨[], .compare, [⟨.display, ['x']⟩], 0⟩ ['y'] .debug =
      .error (.kindMismatch .display .debug) :=
  kind_mismatch_takes_precedence ⟨[], .compare, [⟨.display, ['x']⟩], 0⟩
    ⟨.display, ['x']⟩ ['y'] .debug rfl rfl (by decide)

/-- C5: A compare-mode session over a baseline of `n` entries accepts
exactly those `n` submissions in order, and the `(n+1)`-th submission —
whatever it is — fails with the extra-entry error, never earlier. -/
theorem extra_entry_fails_exactly_after_baseline (entries : List RegEntry)
    (path m : List Char) (k : RegType) :
    ∃ rtF,
      RegTest.new path (some (.good entries)) =
        .ok ⟨path, .compare, entries, 0⟩ ∧
      submitAll ⟨path, .compare, entries, 0⟩
        (entries.map fun e => (e.reg_type, e.message)) = .ok rtF ∧
      regtest_internal rtF m k = .error .unexpectedExtraEntry := by
  refine ⟨⟨path, .compare, entries, entries.length⟩, rfl, ?_, ?_⟩
  · have h := submitAll_replay entries ⟨path, .compare, entries, 0⟩ rfl
      (by simp)
    simpa using h
  · unfold regtest_internal
    simp [List.getElem?_eq_none (Nat.le_refl entries.length)]

/-- C3: Round trip — recording any observation sequence in a record-mode
session, finalizing it (successful write), then creating a compare-mode
session at the same location and replaying the same sequence succeeds
with zero failures. -/
theorem record_then_compare_roundtrip (path : List Char)
    (obs : List (RegType × List Char)) :
    ∃ rtW rtR rtF,
      RegTest.new path none = .ok ⟨path, .write, [], 0⟩ ∧
      submitAll ⟨path, .write, [], 0⟩ obs = .ok rtW ∧
      RegTest.new path (dropRegTest rtW true true none) = .ok rtR ∧
      submitAll rtR obs = .ok rtF := by
  refine ⟨⟨path, .write, obs.map entryOf, 0⟩,
      ⟨path, .compare, obs.map entryOf, 0⟩,
      ⟨path, .compare, obs.map entryOf, (obs.map entryOf).length⟩,
      rfl, ?_, rfl, ?_⟩
  · simpa using submitAll_write_eq obs ⟨path, .write, [], 0⟩ rfl
  · have h := submitAll_replay (obs.map entryOf)
      ⟨path, .compare, obs.map entryOf, 0⟩ rfl (by simp)
    have hfun : ((fun e : RegEntry => (e.reg_type, e.message)) ∘ entryOf) =
        id := by
      funext km
      cases km
      rfl
    have hobs : (obs.map entryOf).map (fun e => (e.reg_type, e.message)) =
        obs := by
      rw [List.map_map, hfun, List.map_id]
    rw [hobs] at h
    simpa using h

/-- C7: a compare-mode session never writes.  Submissions perform no
storage I/O at all (`regtest_internal` does not touch the storage state);
finalization of any compare-mode session — whatever its baseline or
cursor, including an empty or exhausted baseline and sessions dropped
while a failed submission unwinds — leaves the artifact unchanged; and a
successful submission keeps the session in compare mode, so its later
finalization writes nothing either. -/
theorem compare_session_never_writes (rt rt' : RegTest) (m : List Char)
    (k : RegType) (o w : Bool) (fs : Option Artifact)
    (hm : rt.mode = .compare) :
    dropRegTest rt o w fs = fs ∧
    (regtest_internal rt m k = .ok rt' →
      rt'.mode = .compare ∧ dropRegTest rt' o w fs = fs) := by
  refine ⟨by simp [dropRegTest, hm], fun hok => ?_⟩
  have hrt' : rt' =
      { rt with mode := .compare, read_index := rt.read_index + 1 } := by
    unfold regtest_internal at hok
    rw [hm] at hok
    cases hg : rt.buffer[rt.read_index]? with
    | none =>
        rw [hg] at hok
        exact absurd hok (by simp)
    | some e =>
        rw [hg] at hok
        simp only [] at hok
        split_ifs at hok
        exact (Except.ok.inj hok).symm
  subst hrt'
  exact ⟨rfl, by simp [dropRegTest]⟩

/-- Witness for C7: a concrete compare-mode session with one entry;
dropping it leaves the artifact unchanged unconditionally, and after the
(successful) matching submission the session is still in compare mode
and dropping still leaves the artifact unchanged. -/
theorem compare_session_never_writes_witness :
    dropRegTest ⟨[], .compare, [⟨.display, ['x']⟩], 0⟩ true true
        (some (.good [⟨.display, ['x']⟩])) =
      some (.good [⟨.display, ['x']⟩]) ∧
    (regtest_internal ⟨[], .compare, [⟨.display, ['x']⟩], 0⟩ ['x']
        .display = .ok ⟨[], .compare, [⟨.display, ['x']⟩], 1⟩ →
      (⟨[], .compare, [⟨.display, ['x']⟩], 1⟩ : RegTest).mode = .compare ∧
      dropRegTest ⟨[], .compare, [⟨.display, ['x']⟩], 1⟩ true true
          (some (.good [⟨.display, ['x']⟩])) =
        some (.good [⟨.display, ['x']⟩])) :=
  compare_session_never_writes ⟨[], .compare, [⟨.display, ['x']⟩], 0⟩
    ⟨[], .compare, [⟨.display, ['x']⟩], 1⟩ ['x'] .display true true
    (some (.good [⟨.display, ['x']⟩])) rfl

/-- C2 counterexample: finalization (the drop) of a record-mode session
whose write fails completes silently — the storage is left as it was and
the caller receives no failure value at all (the drop has no error
result), contradicting the claim that a failed write is surfaced as a
write error. -/
theorem drop_write_failure_is_silent :
    dropRegTest ⟨['p'], .write, [⟨.display, ['x']⟩], 0⟩ false false none =
      none := rfl

/-- C2 (amended): in record mode the drop serializes the full ordered
buffer when I/O succeeds; when opening fails it leaves the prior storage
untouched, and when writing fails after a truncating open it leaves an
unparseable partial file — in every case it reports nothing to the
caller. -/
theorem drop_write_serializes_or_discards_failure (rt : RegTest)
    (fs : Option Artifact) (hm : rt.mode = .write) :
    dropRegTest rt true true fs = some (.good rt.buffer) ∧
    dropRegTest rt false false fs = fs ∧
    dropRegTest rt true false fs = some .corrupt := by
  refine ⟨?_, ?_, ?_⟩ <;> simp [dropRegTest, hm]

/-- Witness for the amended C2 at a concrete record-mode session. -/
theorem drop_write_serializes_or_discards_failure_witness :
    dropRegTest ⟨['p'], .write, [⟨.debug, ['z']⟩], 0⟩ true true none =
      some (.good [⟨.debug, ['z']⟩]) ∧
    dropRegTest ⟨['p'], .write, [⟨.debug, ['z']⟩], 0⟩ false false none =
      none ∧
    dropRegTest ⟨['p'], .write, [⟨.debug, ['z']⟩], 0⟩ true false none =
      some .corrupt :=
  drop_write_serializes_or_discards_failure
    ⟨['p'], .write, [⟨.debug, ['z']⟩], 0⟩ none rfl

/- ## Helper lemmas about line splitting and the diff loop -/

/-- Splitting never yields the empty list of segments. -/
theorem splitNL_ne_nil (s : List Char) : splitNL s ≠ [] := by
  cases s with
  | nil => simp [splitNL]
  | cons c cs =>
      by_cases hc : c = '\n'
      · simp [splitNL, hc]
      · simp only [splitNL, if_neg hc]
        cases hsp : splitNL cs with
        | nil => simp
        | cons l ls => simp

/-- Prepending to a nonempty list keeps its last element. -/
theorem getLast?_cons_of_ne_nil {α : Type} {c : α} {l : List α}
    (h : l ≠ []) : (c :: l).getLast? = l.getLast? := by
  cases l with
  | nil => exact absurd rfl h
  | cons d ds => exact List.getLast?_cons_cons

/-- The defining equation of `splitNL` on a nonempty list. -/
theorem splitNL_cons (c : Char) (cs : List Char) :
    splitNL (c :: cs) =
      if c = '\n' then [] :: splitNL cs
      else
        match splitNL cs with
        | [] => [[c]]
        | l :: ls => (c :: l) :: ls := rfl

/-- Appending a final newline appends one empty segment. -/
theorem splitNL_append_newline (s : List Char) :
    splitNL (s ++ ['\n']) = splitNL s ++ [[]] := by
  induction s with
  | nil => simp [splitNL]
  | cons c cs ih =>
      by_cases hc : c = '\n'
      · subst hc
        simp [splitNL, ih]
      · rw [List.cons_append, splitNL_cons, splitNL_cons, if_neg hc,
          if_neg hc, ih]
        cases hsp : splitNL cs with
        | nil => exact absurd hsp (splitNL_ne_nil cs)
        | cons l ls => rfl

/-- For a nonempty input not ending in a newline, the final segment of
the split is nonempty and ends in the input's final character. -/
theorem splitNL_getLast_of_ne (s : List Char) (hs : s ≠ [])
    (hn : s.getLast? ≠ some '\n') :
    ∃ t, (splitNL s).getLast? = some t ∧ t ≠ [] ∧
      t.getLast? = s.getLast? := by
  induction s with
  | nil => exact absurd rfl hs
  | cons c cs ih =>
      cases cs with
      | nil =>
          have hc : c ≠ '\n' := by
            intro h
            exact hn (by simp [h])
          refine ⟨[c], ?_, by simp, by simp⟩
          simp [splitNL, hc]
      | cons d ds =>
          have hlast : (c :: d :: ds).getLast? = (d :: ds).getLast? :=
            List.getLast?_cons_cons
          have hn' : (d :: ds).getLast? ≠ some '\n' := by
            rw [← hlast]
            exact hn
          obtain ⟨t, ht1, ht2, ht3⟩ := ih (by simp) hn'
          by_cases hc : c = '\n'
          · subst hc
            refine ⟨t, ?_, ht2, by rw [ht3, hlast]⟩
            rw [splitNL_cons, if_pos rfl,
              getLast?_cons_of_ne_nil (splitNL_ne_nil (d :: ds))]
            exact ht1
          · rw [splitNL_cons, if_neg hc]
            cases hsp : splitNL (d :: ds) with
            | nil => exact absurd hsp (splitNL_ne_nil (d :: ds))
            | cons l ls =>
                rw [hsp] at ht1
                cases ls with
                | nil =>
                    have htl : t = l := by
                      have := ht1
                      simp at this
                      exact this.symm
                    subst htl
                    refine ⟨c :: t, by simp, by simp, ?_⟩
                    rw [getLast?_cons_of_ne_nil ht2, ht3, hlast]
                | cons z zs =>
                    refine ⟨t, ?_, ht2, by rw [ht3, hlast]⟩
                    show ((c :: l) :: z :: zs).getLast? = some t
                    rw [List.getLast?_cons_cons]
                    rw [List.getLast?_cons_cons] at ht1
                    exact ht1

/-- For a nonempty input whose final character is neither a newline nor a
carriage return, appending one newline does not change the line split. -/
theorem rustLines_append_newline (s : List Char) (hs : s ≠ [])
    (hn : s.getLast? ≠ some '\n') (hr : s.getLast? ≠ some '\r') :
    rustLines (s ++ ['\n']) = rustLines s := by
  obtain ⟨t, ht1, ht2, ht3⟩ := splitNL_getLast_of_ne s hs hn
  have h1 : rustLines (s ++ ['\n']) = (splitNL s).map stripCR := by
    unfold rustLines
    rw [splitNL_append_newline]
    simp [List.getLast?_concat, List.dropLast_concat]
  obtain ⟨ys, hys⟩ := List.getLast?_eq_some_iff.mp ht1
  have h2 : rustLines s = ys.map stripCR ++ [t] := by
    unfold rustLines
    rw [hys]
    have hne : (ys ++ [t]).getLast? ≠ some ([] : List Char) := by
      rw [List.getLast?_concat]
      intro h
      exact ht2 (Option.some.inj h)
    rw [if_neg hne]
    rw [List.dropLast_concat, List.getLastD_eq_getLast?,
      List.getLast?_concat]
    rfl
  have h3 : stripCR t = t := by
    unfold stripCR
    rw [ht3]
    exact if_neg hr
  rw [h1, h2, hys, List.map_append]
  simp [h3]

/-- Walking two identical line sequences with empty pending blocks emits
every line as context, in order. -/
theorem diffLoop_self (L : List (List Char)) (acc : List Char) :
    diffLoop L.length L L [] [] acc =
      acc ++ (L.map (fun l => ' ' :: ' ' :: (l ++ ['\n']))).flatten := by
  induction L generalizing acc with
  | nil => simp [diffLoop, renderMinus, renderPlus]
  | cons e L ih =>
      have hstep : diffLoop (L.length + 1) (e :: L) (e :: L) [] [] acc =
          diffLoop L.length L L [] []
            (acc ++ (' ' :: ' ' :: (e ++ ['\n']))) := by
        simp [diffLoop]
      rw [List.length_cons, hstep, ih]
      simp

/- ## Claim theorems: the diff reporter -/

/-- C9: For every string, the diff of the string with itself is the
all-context report: every line prefixed with two spaces, in order, and
nothing else (in particular no removed or added lines). -/
theorem diff_identical_is_all_context (s : String) :
    diffStr s s =
      ⟨((rustLines s.data).map
          (fun l => ' ' :: ' ' :: (l ++ ['\n']))).flatten⟩ := by
  unfold diffStr diff_lines
  simp only [Nat.max_self]
  rw [diffLoop_self]
  rfl

/-- Concrete illustration of the all-context report on an input with an
interior empty line: `"a\n\nb"` splits into the lines `a`, `` (empty)
and `b`, and the empty line is itself emitted as the context line
`"  \n"`.  The missing-index-as-empty substitution of the loop applies
only to indices past the end of a line sequence; a genuine interior
empty line is a real element of both sequences, compares equal to
itself with empty pending blocks, and is therefore emitted like any
other matching line. -/
theorem diff_identical_interior_empty_line_example :
    rustLines "a\n\nb".data = [['a'], [], ['b']] ∧
    diffStr "a\n\nb" "a\n\nb" = "  a\n  \n  b\n" := by
  decide

/-- C1 counterexample: on the claimed example the report is exactly
`"  a\n- b\n+ x\n"` — the matching line `c` after the differing run is
not emitted, so no `"  c"` line occurs in the report, contrary to the
claim. -/
theorem diff_example_has_no_trailing_context :
    diffStr "a\nb\nc" "a\nx\nc" = "  a\n- b\n+ x\n" ∧
    "  c".data ∉ rustLines (diffStr "a\nb\nc" "a\nx\nc").data := by
  decide

/-- C1 (amended): at the first index where the lines are equal again
after a run of differing lines, the loop emits every pending removed
line (prefixed `- `), then every pending added line (prefixed `+ `), and
clears both runs, but does not emit the matching line itself; on the
example, `diff("a\nb\nc", "a\nx\nc")` is `"  a\n- b\n+ x\n"`, containing
`"  a"`, `"- b"`, `"+ x"` in that order and no `"  c"` line. -/
theorem diff_flush_removed_then_added_skips_match :
    (∀ (n : Nat) (e : List Char) (es as_ minus plus : List (List Char))
        (acc : List Char), minus ≠ [] ∨ plus ≠ [] →
        diffLoop (n + 1) (e :: es) (e :: as_) minus plus acc =
          diffLoop n es as_ [] []
            (acc ++ renderMinus minus ++ renderPlus plus)) ∧
    diffStr "a\nb\nc" "a\nx\nc" = "  a\n- b\n+ x\n" := by
  constructor
  · intro n e es as_ minus plus acc h
    simp [diffLoop, h]
  · decide

/-- Witness for the amended C1: one concrete flush step with pending
removed line `b` and pending added line `x` at a matching line `q`. -/
theorem diff_flush_removed_then_added_skips_match_witness :
    diffLoop 1 [['q']] [['q']] [['b']] [['x']] [] =
      diffLoop 0 [] [] [] []
        ([] ++ renderMinus [['b']] ++ renderPlus [['x']]) :=
  diff_flush_removed_then_added_skips_match.1 0 ['q'] [] [] [['b']]
    [['x']] [] (Or.inl (by decide))

/-- C10 counterexample: at `s = ""`, `diff(s, s + "\n")` is `"  \n"`
while `diff(s, s)` is `""` — appending a trailing newline to the empty
string does change the report. -/
theorem diff_trailing_newline_empty_string_cex :
    diffStr "" ("" ++ "\n") ≠ diffStr "" "" := by
  decide

/-- C10 (amended): for every nonempty string whose final character is
neither a newline nor a carriage return, the two inputs split into
identical line sequences, so `diff(s, s + "\n") = diff(s, s)` and the
report signals no difference. -/
theorem diff_insensitive_to_single_trailing_newline (s : String)
    (h0 : s.data ≠ []) (hn : s.data.getLast? ≠ some '\n')
    (hr : s.data.getLast? ≠ some '\r') :
    diffStr s (s ++ "\n") = diffStr s s := by
  unfold diffStr diff_lines
  have hdata : (s ++ "\n").data = s.data ++ ['\n'] := by
    rw [String.data_append]
  rw [hdata, rustLines_append_newline s.data h0 hn hr]

/-- Witness for the amended C10 at `s = "a"`. -/
theorem diff_insensitive_to_single_trailing_newline_witness :
    diffStr "a" ("a" ++ "\n") = diffStr "a" "a" :=
  diff_insensitive_to_single_trailing_newline "a" (by decide) (by decide)
    (by decide)
